import Mathlib

/-!
# imgtool: the pixel-processing pipeline of `src/app.js`

A shallow embedding of the image-processing functions of `src/app.js`
(`processImage`, the four tonal stages, `applySkinSmoothing`, `isSkinTone`,
`applySharpening`, `clamp`, the tally part of `updateHistogram`, and the canvas
dimensions computed by `setupCanvases` and `downloadImage`).

Modelling conventions.

* `ImageData.data` (a `Uint8ClampedArray`) is a `List Nat` of byte values, indexed
  from 0; a read past the end is `none` (JavaScript `undefined`) and a write past
  the end is dropped, as for a typed array.
* JavaScript numbers are idealised as exact rationals (`ℚ`): every double is a
  rational, and `Math.round`, `Math.max`, `Math.min` and the comparisons are exact on
  doubles; the rounding error of `*`, `/`, `+`, `-` on doubles is not modelled.
* The canvas `blur(Npx)` filter is a platform primitive: it is a parameter
  `blur : Nat → Buffer → Buffer` (radius, source buffer) of the stages that use it.
* `ctx.putImageData` followed by `ctx.getImageData` on the same canvas gives back the
  bytes that were put: the stages pass a `Buffer` from one to the next.
* The classifier `isSkinTone` below evaluates the formulas of the source over exact
  rationals; the source evaluates them in doubles, and on a byte triple that sits on
  an edge of a band (saturation exactly 0.12, hue exactly 50, ...) the two can
  disagree. The stages that call the classifier (`smoothingBlend`,
  `applySkinSmoothing`, `processImage`) therefore take it as a parameter
  `skin : Nat → Nat → Nat → Bool` on the three bytes of a pixel, like the blur: what
  is proved of them holds for the classifier as the source computes it.
* The six sliders hold integers (`parseInt(slider.value)`).
* Loops are the recursive functions `forStep4From` (`i += 4`) and `forUpTo` (`j++`);
  `forStep4_eq_foldl` and `forUpTo_eq_foldl` list the counter values they visit.
-/

namespace ImgTool

/-- The bytes of an `ImageData.data` array: R, G, B, A, R, G, B, A, ... -/
abbrev Buffer := List Nat

/-- The module-level `settings` object. -/
structure Settings where
  brightness : ℤ
  contrast : ℤ
  shadows : ℤ
  highlights : ℤ
  smoothing : ℤ
  sharpness : ℤ
  deriving DecidableEq, Repr

/-- A well-formed pixel buffer: whole RGBA pixels, every sample a byte. -/
def IsPixelBuffer (d : Buffer) : Prop :=
  d.length % 4 = 0 ∧ ∀ x ∈ d, x < 256

instance (d : Buffer) : Decidable (IsPixelBuffer d) := by
  unfold IsPixelBuffer; infer_instance

/-- The JavaScript `Math.round(v)`: the nearest integer, a tie going up. -/
def jsRound {α : Type} [LinearOrderedField α] [FloorRing α] (v : α) : ℤ :=
  ⌊v + 1 / 2⌋

/-- Source `clamp(v)`: `Math.max(0, Math.min(255, Math.round(v)))`. -/
def clamp {α : Type} [LinearOrderedField α] [FloorRing α] (v : α) : ℤ :=
  max 0 (min 255 (jsRound v))

/-- The loop `for (; i < n; i += 4) body` entered with the counter at `i` and the
state `s`: the state when the loop exits. -/
def forStep4From {σ : Type} (n : Nat) (body : Nat → σ → σ) (i : Nat) (s : σ) : σ :=
  if i < n then forStep4From n body (i + 4) (body i s) else s
termination_by n - i

/-- The loop `for (var i = 0; i < n; i += 4) body`: the body runs at
`i = 0, 4, 8, ...` for as long as `i < n`, each time on the state left by the
previous iteration. -/
def forStep4 {σ : Type} (n : Nat) (body : Nat → σ → σ) (s : σ) : σ :=
  forStep4From n body 0 s

/-- The loop `for (; j < hi; j++) body` entered with the counter at `j` and the
state `s`: the state when the loop exits. -/
def forUpTo {σ : Type} (hi : Nat) (body : Nat → σ → σ) (j : Nat) (s : σ) : σ :=
  if j < hi then forUpTo hi body (j + 1) (body j s) else s
termination_by hi - j

/-- The assignment `d[j] = f(d[j])` where `f` ends in `clamp`: the stored value is an
integer of `[0, 255]`, which the `Uint8ClampedArray` keeps as it is; when `j` is past
the end the read is `undefined` and the write is dropped. -/
def updateChannel (d : Buffer) (j : Nat) (f : ℚ → ℤ) : Buffer :=
  match d[j]? with
  | some x => d.set j (f (x : ℚ)).toNat
  | none => d

/-- Source `adjustBrightness(imageData, value)`. -/
def adjustBrightness (d : Buffer) (value : ℤ) : Buffer :=
  let factor : ℚ := (value : ℚ) * 2.55
  forStep4 d.length (fun i d =>
    let d := updateChannel d i (fun x => clamp (x + factor))
    let d := updateChannel d (i + 1) (fun x => clamp (x + factor))
    updateChannel d (i + 2) (fun x => clamp (x + factor))) d

/-- Source `adjustContrast(imageData, value)`. -/
def adjustContrast (d : Buffer) (value : ℤ) : Buffer :=
  let factor : ℚ := (259 * ((value : ℚ) + 255)) / (255 * (259 - (value : ℚ)))
  forStep4 d.length (fun i d =>
    let d := updateChannel d i (fun x => clamp (factor * (x - 128) + 128))
    let d := updateChannel d (i + 1) (fun x => clamp (factor * (x - 128) + 128))
    updateChannel d (i + 2) (fun x => clamp (factor * (x - 128) + 128))) d

/-- The body of the inner loop of `adjustShadows` on one channel sample `x = d[i + c]`:
the value the sample has afterwards. -/
def shadowsChannel (amount : ℚ) (x : Nat) : Nat :=
  let v : ℚ := (x : ℚ) / 255
  if v < 0.5 then
    let lift : ℚ := amount * (1 - v * 2) * 0.5
    (clamp ((v + lift) * 255)).toNat
  else x

/-- The body of the inner loop of `adjustHighlights` on one channel sample
`x = d[i + c]`: the value the sample has afterwards. -/
def highlightsChannel (amount : ℚ) (x : Nat) : Nat :=
  let v : ℚ := (x : ℚ) / 255
  if v > 0.5 then
    let compress : ℚ := amount * (v * 2 - 1) * 0.5
    (clamp ((v - compress) * 255)).toNat
  else x

/-- The statement `d[j] = g(d[j])` guarded inside `g`; a read past the end leaves the
buffer as it is. -/
def mapChannel (d : Buffer) (j : Nat) (g : Nat → Nat) : Buffer :=
  match d[j]? with
  | some x => d.set j (g x)
  | none => d

/-- Source `adjustShadows(imageData, value)`: the inner loop `for (c = 0; c < 3; c++)` is
unrolled. -/
def adjustShadows (d : Buffer) (value : ℤ) : Buffer :=
  let amount : ℚ := (value : ℚ) / 100
  forStep4 d.length (fun i d =>
    let d := mapChannel d (i + 0) (shadowsChannel amount)
    let d := mapChannel d (i + 1) (shadowsChannel amount)
    mapChannel d (i + 2) (shadowsChannel amount)) d

/-- Source `adjustHighlights(imageData, value)`: the inner loop `for (c = 0; c < 3; c++)` is
unrolled. -/
def adjustHighlights (d : Buffer) (value : ℤ) : Buffer :=
  let amount : ℚ := (value : ℚ) / 100
  forStep4 d.length (fun i d =>
    let d := mapChannel d (i + 0) (highlightsChannel amount)
    let d := mapChannel d (i + 1) (highlightsChannel amount)
    mapChannel d (i + 2) (highlightsChannel amount)) d

/-- Source `isSkinTone(r, g, b)`: RGB to HSL, then the hue / saturation / lightness band,
over exact rationals. The doubles of the source agree with it away from the edges of
the bands. -/
def isSkinTone (r g b : ℚ) : Bool :=
  let rn := r / 255
  let gn := g / 255
  let bn := b / 255
  let mx := max (max rn gn) bn
  let mn := min (min rn gn) bn
  let l := (mx + mn) / 2
  if mx = mn then false
  else
    let d := mx - mn
    let s := if l > 0.5 then d / (2 - mx - mn) else d / (mx + mn)
    let h :=
      if mx = rn then ((gn - bn) / d + (if gn < bn then 6 else 0)) / 6
      else if mx = gn then ((bn - rn) / d + 2) / 6
      else ((rn - gn) / d + 4) / 6
    let h := h * 360
    decide (h ≥ 0 ∧ h ≤ 50 ∧ s ≥ 0.12 ∧ s ≤ 0.78 ∧ l ≥ 0.15 ∧ l ≤ 0.85)

/-- The assignment `oD[j] = clamp(e(bD[j]))`: when `bD[j]` is `undefined` the value is
`NaN`, which a `Uint8ClampedArray` stores as 0. -/
def blendChannel (oD bD : Buffer) (j : Nat) (e : ℚ → ℚ) : Buffer :=
  match bD[j]? with
  | some y => oD.set j (clamp (e (y : ℚ))).toNat
  | none => oD.set j 0

/-- The blend loop of `applySkinSmoothing` (lines 318-329) over the original data `oD`
and the blurred data `bD`; `skin r g b` is the result of the call
`isSkinTone(r, g, b)` on the three bytes of a pixel. A pixel with an `undefined`
channel is not skin (`isSkinTone` compares `NaN`). -/
def smoothingBlend (skin : Nat → Nat → Nat → Bool) (oD bD : Buffer) (amount : ℤ) : Buffer :=
  let blendAmount : ℚ := (amount : ℚ) / 100
  forStep4 oD.length (fun i oD =>
    match oD[i]?, oD[i + 1]?, oD[i + 2]? with
    | some r, some g, some b =>
      if skin r g b then
        let oD := blendChannel oD bD i (fun y => r + (y - r) * blendAmount)
        let oD := blendChannel oD bD (i + 1) (fun y => g + (y - g) * blendAmount)
        blendChannel oD bD (i + 2) (fun y => b + (y - b) * blendAmount)
      else oD
    | _, _, _ => oD) oD

/-- Source `applySkinSmoothing(canvas, ctx, w, h, amount)` on the data of the canvas. -/
def applySkinSmoothing (blur : Nat → Buffer → Buffer) (skin : Nat → Nat → Nat → Bool)
    (d : Buffer) (amount : ℤ) : Buffer :=
  let blurRadius : ℤ := max 1 (jsRound ((amount : ℚ) / 8))
  smoothingBlend skin d (blur blurRadius.toNat d) amount

/-- The assignment `oD[j] = clamp(oD[j] + (oD[j] - bD[j]) * strength)`. -/
def sharpenChannel (oD bD : Buffer) (j : Nat) (strength : ℚ) : Buffer :=
  match oD[j]? with
  | some x => blendChannel oD bD j (fun y => (x : ℚ) + ((x : ℚ) - y) * strength)
  | none => oD

/-- The blend loop of `applySharpening` (lines 370-378). -/
def sharpeningBlend (oD bD : Buffer) (amount : ℤ) : Buffer :=
  let strength : ℚ := (amount : ℚ) / 50
  forStep4 oD.length (fun i oD =>
    let oD := sharpenChannel oD bD i strength
    let oD := sharpenChannel oD bD (i + 1) strength
    sharpenChannel oD bD (i + 2) strength) oD

/-- Source `applySharpening(canvas, ctx, w, h, amount)` on the data of the canvas. -/
def applySharpening (blur : Nat → Buffer → Buffer) (d : Buffer) (amount : ℤ) : Buffer :=
  sharpeningBlend d (blur 1 d) amount

/-- Source `processImage(canvas, ctx, w, h)`: `d` is the image data read back after the source
image is drawn; the result is the data of the canvas at the end. -/
def processImage (blur : Nat → Buffer → Buffer) (skin : Nat → Nat → Nat → Bool)
    (settings : Settings) (d : Buffer) : Buffer :=
  let d := if settings.brightness ≠ 0 then adjustBrightness d settings.brightness else d
  let d := if settings.contrast ≠ 0 then adjustContrast d settings.contrast else d
  let d := if settings.shadows ≠ 0 then adjustShadows d settings.shadows else d
  let d := if settings.highlights ≠ 0 then adjustHighlights d settings.highlights else d
  let d := if settings.smoothing > 0 then applySkinSmoothing blur skin d settings.smoothing else d
  if settings.sharpness > 0 then applySharpening blur d settings.sharpness else d

/-- The three count arrays and the scale of `updateHistogram`. -/
structure HistogramResult where
  rHist : List Nat
  gHist : List Nat
  bHist : List Nat
  maxVal : Nat
  deriving DecidableEq, Repr

/-- The statement `hist[v]++` for a sample `v`: a byte increments its bucket; for
`undefined` no bucket of the array changes. -/
def bump (hist : List Nat) (v : Option Nat) : List Nat :=
  match v with
  | some x => hist.set x (hist.getD x 0 + 1)
  | none => hist

/-- The tally loop of `updateHistogram` (lines 401-409). -/
def tally (d : Buffer) : List Nat × List Nat × List Nat :=
  forStep4 d.length
    (fun i acc => (bump acc.1 d[i]?, bump acc.2.1 d[i + 1]?, bump acc.2.2 d[i + 2]?))
    (List.replicate 256 0, List.replicate 256 0, List.replicate 256 0)

/-- One iteration of the loop `for (var j = 1; j < 254; j++)` (lines 412-416): the
value of `maxVal` after the three comparisons at bucket `j`. -/
def maxStep (rHist gHist bHist : List Nat) (j maxVal : Nat) : Nat :=
  let maxVal := if rHist.getD j 0 > maxVal then rHist.getD j 0 else maxVal
  let maxVal := if gHist.getD j 0 > maxVal then gHist.getD j 0 else maxVal
  if bHist.getD j 0 > maxVal then bHist.getD j 0 else maxVal

/-- The scale computed by lines 411-418 of `updateHistogram`. -/
def histMax (rHist gHist bHist : List Nat) : Nat :=
  let maxVal := forUpTo 254 (maxStep rHist gHist bHist) 1 0
  if maxVal = 0 then 1 else maxVal

/-- The data computed by `updateHistogram` from the bytes of the preview canvas. -/
def updateHistogram (d : Buffer) : HistogramResult :=
  let t := tally d
  { rHist := t.1, gHist := t.2.1, bHist := t.2.2, maxVal := histMax t.1 t.2.1 t.2.2 }


/-- The block shared by `setupCanvases` (lines 183-189) and `downloadImage`
(lines 505-513): from the cap `maxSize` and the width and height of the source image,
the width and height given to the canvas. The source image has `w ≥ 1` and `h ≥ 1`. -/
def capSize (maxSize w h : Nat) : ℤ × ℤ :=
  if w > maxSize ∨ h > maxSize then
    let ratio : ℚ := min ((maxSize : ℚ) / (w : ℚ)) ((maxSize : ℚ) / (h : ℚ))
    (jsRound ((w : ℚ) * ratio), jsRound ((h : ℚ) * ratio))
  else ((w : ℤ), (h : ℤ))

/-- The width and height `setupCanvases(img)` gives to the preview and processing
canvases, from `img.width` and `img.height`. -/
def setupCanvases (w h : Nat) : ℤ × ℤ :=
  capSize 1200 w h

/-- The width and height `downloadImage()` gives to the export canvas, from
`originalImage.width` and `originalImage.height`. -/
def downloadImage (w h : Nat) : ℤ × ℤ :=
  capSize 2048 w h

/-- A buffer of `n` pixels, each of them `(r, g, b, a)`. -/
def solidBuffer (r g b a : Nat) : Nat → Buffer
  | 0 => []
  | n + 1 => r :: g :: b :: a :: solidBuffer r g b a n

/-! ## Framing lemmas for the single-sample assignments -/

theorem forStep4From_eq_foldl {σ : Type} (n : Nat) (body : Nat → σ → σ) (m : Nat) :
    ∀ (k0 : Nat) (s : σ), (n + 3) / 4 - k0 = m →
      forStep4From n body (4 * k0) s
        = (List.range' k0 m).foldl (fun acc k => body (4 * k) acc) s := by
  induction m with
  | zero =>
    intro k0 s h
    rw [forStep4From, if_neg (by omega)]
    rfl
  | succ m ih =>
    intro k0 s h
    rw [forStep4From, if_pos (by omega), List.range'_succ, List.foldl_cons]
    exact ih (k0 + 1) (body (4 * k0) s) (by omega)

/-- The loop runs its body at `i = 4 * k` for `k = 0, 1, ..., ⌈n / 4⌉ - 1`. -/
theorem forStep4_eq_foldl {σ : Type} (n : Nat) (body : Nat → σ → σ) (s : σ) :
    forStep4 n body s
      = (List.range ((n + 3) / 4)).foldl (fun acc k => body (4 * k) acc) s := by
  rw [List.range_eq_range']
  exact forStep4From_eq_foldl n body _ 0 s (by omega)

theorem forUpTo_eq_foldl {σ : Type} (hi : Nat) (body : Nat → σ → σ) (m : Nat) :
    ∀ (j : Nat) (s : σ), hi - j = m →
      forUpTo hi body j s = (List.range' j m).foldl (fun acc k => body k acc) s := by
  induction m with
  | zero =>
    intro j s h
    rw [forUpTo, if_neg (by omega)]
    rfl
  | succ m ih =>
    intro j s h
    rw [forUpTo, if_pos (by omega), List.range'_succ, List.foldl_cons]
    exact ih (j + 1) (body j s) (by omega)

theorem forStep4_induct {σ : Type} (P : σ → Prop) (n : Nat) (body : Nat → σ → σ)
    (d : σ) (h0 : P d) (hs : ∀ k acc, P acc → P (body (4 * k) acc)) :
    P (forStep4 n body d) := by
  rw [forStep4_eq_foldl]
  generalize List.range ((n + 3) / 4) = ks
  induction ks generalizing d with
  | nil => simpa using h0
  | cons k ks ih => exact ih _ (hs k d h0)

theorem getElem?_updateChannel_ne (d : Buffer) (f : ℚ → ℤ) {j i : Nat} (h : j ≠ i) :
    (updateChannel d j f)[i]? = d[i]? := by
  unfold updateChannel
  split
  · exact List.getElem?_set_ne h
  · rfl

theorem getElem?_mapChannel_ne (d : Buffer) (g : Nat → Nat) {j i : Nat} (h : j ≠ i) :
    (mapChannel d j g)[i]? = d[i]? := by
  unfold mapChannel
  split
  · exact List.getElem?_set_ne h
  · rfl

theorem getElem?_blendChannel_ne (oD bD : Buffer) (e : ℚ → ℚ) {j i : Nat} (h : j ≠ i) :
    (blendChannel oD bD j e)[i]? = oD[i]? := by
  unfold blendChannel
  split <;> exact List.getElem?_set_ne h

theorem getElem?_sharpenChannel_ne (oD bD : Buffer) (s : ℚ) {j i : Nat} (h : j ≠ i) :
    (sharpenChannel oD bD j s)[i]? = oD[i]? := by
  unfold sharpenChannel
  split
  · exact getElem?_blendChannel_ne _ _ _ h
  · rfl

theorem adjustBrightness_alpha (d : Buffer) (value : ℤ) (i : Nat) (hi : i % 4 = 3) :
    (adjustBrightness d value)[i]? = d[i]? := by
  unfold adjustBrightness
  refine forStep4_induct (fun acc => acc[i]? = d[i]?) _ _ d rfl ?_
  intro k acc h
  simp only
  rw [getElem?_updateChannel_ne _ _ (by omega), getElem?_updateChannel_ne _ _ (by omega),
    getElem?_updateChannel_ne _ _ (by omega), h]

theorem adjustContrast_alpha (d : Buffer) (value : ℤ) (i : Nat) (hi : i % 4 = 3) :
    (adjustContrast d value)[i]? = d[i]? := by
  unfold adjustContrast
  refine forStep4_induct (fun acc => acc[i]? = d[i]?) _ _ d rfl ?_
  intro k acc h
  simp only
  rw [getElem?_updateChannel_ne _ _ (by omega), getElem?_updateChannel_ne _ _ (by omega),
    getElem?_updateChannel_ne _ _ (by omega), h]

theorem adjustShadows_alpha (d : Buffer) (value : ℤ) (i : Nat) (hi : i % 4 = 3) :
    (adjustShadows d value)[i]? = d[i]? := by
  unfold adjustShadows
  refine forStep4_induct (fun acc => acc[i]? = d[i]?) _ _ d rfl ?_
  intro k acc h
  simp only
  rw [getElem?_mapChannel_ne _ _ (by omega), getElem?_mapChannel_ne _ _ (by omega),
    getElem?_mapChannel_ne _ _ (by omega), h]

theorem adjustHighlights_alpha (d : Buffer) (value : ℤ) (i : Nat) (hi : i % 4 = 3) :
    (adjustHighlights d value)[i]? = d[i]? := by
  unfold adjustHighlights
  refine forStep4_induct (fun acc => acc[i]? = d[i]?) _ _ d rfl ?_
  intro k acc h
  simp only
  rw [getElem?_mapChannel_ne _ _ (by omega), getElem?_mapChannel_ne _ _ (by omega),
    getElem?_mapChannel_ne _ _ (by omega), h]

theorem smoothingBlend_alpha (skin : Nat → Nat → Nat → Bool) (oD bD : Buffer) (amount : ℤ)
    (i : Nat) (hi : i % 4 = 3) :
    (smoothingBlend skin oD bD amount)[i]? = oD[i]? := by
  unfold smoothingBlend
  refine forStep4_induct (fun acc => acc[i]? = oD[i]?) _ _ oD rfl ?_
  intro k acc h
  simp only
  split
  · split
    · rw [getElem?_blendChannel_ne _ _ _ (by omega), getElem?_blendChannel_ne _ _ _ (by omega),
        getElem?_blendChannel_ne _ _ _ (by omega), h]
    · exact h
  · exact h

theorem sharpeningBlend_alpha (oD bD : Buffer) (amount : ℤ) (i : Nat) (hi : i % 4 = 3) :
    (sharpeningBlend oD bD amount)[i]? = oD[i]? := by
  unfold sharpeningBlend
  refine forStep4_induct (fun acc => acc[i]? = oD[i]?) _ _ oD rfl ?_
  intro k acc h
  simp only
  rw [getElem?_sharpenChannel_ne _ _ _ (by omega), getElem?_sharpenChannel_ne _ _ _ (by omega),
    getElem?_sharpenChannel_ne _ _ _ (by omega), h]

/-- C1: with all six settings at 0, `processImage` returns its input buffer unchanged,
whatever the blur primitive and the skin classifier are: no stage runs. -/
theorem processImage_neutral (blur : Nat → Buffer → Buffer)
    (skin : Nat → Nat → Nat → Bool) (d : Buffer) :
    processImage blur skin
      { brightness := 0, contrast := 0, shadows := 0, highlights := 0,
        smoothing := 0, sharpness := 0 } d = d := by
  simp [processImage]

/-- C2: every alpha byte (index `i` with `i % 4 = 3`) of the output of `processImage`
is the alpha byte of the input at that index, for every buffer, every settings, every
blur primitive and every skin classifier; and each of the six stages on its own
leaves it alone. -/
theorem processImage_alpha (blur : Nat → Buffer → Buffer) (skin : Nat → Nat → Nat → Bool)
    (s : Settings) (d : Buffer) (i : Nat) (hi : i % 4 = 3) :
    (processImage blur skin s d)[i]? = d[i]? ∧
    (∀ value, (adjustBrightness d value)[i]? = d[i]?) ∧
    (∀ value, (adjustContrast d value)[i]? = d[i]?) ∧
    (∀ value, (adjustShadows d value)[i]? = d[i]?) ∧
    (∀ value, (adjustHighlights d value)[i]? = d[i]?) ∧
    (∀ bD amount, (smoothingBlend skin d bD amount)[i]? = d[i]?) ∧
    (∀ bD amount, (sharpeningBlend d bD amount)[i]? = d[i]?) := by
  refine ⟨?_, fun v => adjustBrightness_alpha d v i hi, fun v => adjustContrast_alpha d v i hi,
    fun v => adjustShadows_alpha d v i hi, fun v => adjustHighlights_alpha d v i hi,
    fun bD a => smoothingBlend_alpha skin d bD a i hi,
    fun bD a => sharpeningBlend_alpha d bD a i hi⟩
  unfold processImage applySkinSmoothing applySharpening
  simp only
  split_ifs <;>
    simp only [adjustBrightness_alpha _ _ i hi, adjustContrast_alpha _ _ i hi,
      adjustShadows_alpha _ _ i hi, adjustHighlights_alpha _ _ i hi,
      smoothingBlend_alpha _ _ _ _ i hi, sharpeningBlend_alpha _ _ _ i hi]

/-- Witness of C2 on a two-pixel buffer with a blur that zeroes every byte. -/
theorem processImage_alpha_witness :
    7 % 4 = 3 ∧
    (processImage (fun _ b => b.map (fun _ => 0)) (fun r g b => isSkinTone r g b)
        { brightness := 20, contrast := 12, shadows := 85, highlights := -60,
          smoothing := 40, sharpness := 30 }
        [198, 141, 111, 200, 10, 20, 30, 77])[7]?
      = [198, 141, 111, 200, 10, 20, 30, 77][7]? :=
  ⟨by decide, (processImage_alpha (fun _ b => b.map (fun _ => 0))
    (fun r g b => isSkinTone r g b)
    { brightness := 20, contrast := 12, shadows := 85, highlights := -60,
      smoothing := 40, sharpness := 30 }
    [198, 141, 111, 200, 10, 20, 30, 77] 7 (by decide)).1⟩

theorem jsRound_bounds {α : Type} [LinearOrderedField α] [FloorRing α] (v : α) :
    ((jsRound v : ℤ) : α) - 1 / 2 ≤ v ∧ v < ((jsRound v : ℤ) : α) + 1 / 2 := by
  unfold jsRound
  have h1 := Int.floor_le (v + 1 / 2)
  have h2 := Int.lt_floor_add_one (v + 1 / 2)
  constructor <;> linarith

theorem jsRound_nearest {α : Type} [LinearOrderedField α] [FloorRing α] (v : α) (m : ℤ) :
    |v - ((jsRound v : ℤ) : α)| ≤ |v - (m : α)| := by
  obtain ⟨h1, h2⟩ := jsRound_bounds v
  have hn : |v - ((jsRound v : ℤ) : α)| ≤ 1 / 2 := by
    rw [abs_le]; constructor <;> linarith
  rcases lt_trichotomy m (jsRound v) with h | h | h
  · have : (m : α) + 1 ≤ ((jsRound v : ℤ) : α) := by exact_mod_cast h
    have : (1 : α) / 2 ≤ v - m := by linarith
    exact hn.trans (this.trans (le_abs_self _))
  · rw [h]
  · have : ((jsRound v : ℤ) : α) + 1 ≤ (m : α) := by exact_mod_cast h
    have : (1 : α) / 2 ≤ -(v - m) := by linarith
    exact hn.trans (this.trans (neg_le_abs _))

theorem jsRound_intCast {α : Type} [LinearOrderedField α] [FloorRing α] (n : ℤ) :
    jsRound (n : α) = n := by
  unfold jsRound
  rw [Int.floor_eq_iff]
  constructor <;> norm_num

/-- C3: for every number `v` of an ordered field with a floor (the reals, the
rationals), `clamp v` is an integer of `[0, 255]`. With `n` the integer nearest to `v`,
a tie going up (`n - 1/2 ≤ v < n + 1/2`, and no integer is nearer to `v`), `clamp v` is
`n` when `0 ≤ n ≤ 255`, `0` when `n < 0` and `255` when `n > 255`; and `clamp n = n`
for every integer `n` of `[0, 255]`. -/
theorem clamp_spec {α : Type} [LinearOrderedField α] [FloorRing α] (v : α) :
    (0 ≤ clamp v ∧ clamp v ≤ 255) ∧
    (∃ n : ℤ, ((n : α) - 1 / 2 ≤ v ∧ v < (n : α) + 1 / 2) ∧
      (∀ m : ℤ, |v - (n : α)| ≤ |v - (m : α)|) ∧
      clamp v = if n < 0 then 0 else if 255 < n then 255 else n) ∧
    (∀ n : ℤ, 0 ≤ n ∧ n ≤ 255 → clamp (n : α) = n) := by
  refine ⟨?_, ⟨jsRound v, jsRound_bounds v, jsRound_nearest v, ?_⟩, ?_⟩
  · unfold clamp
    constructor
    · exact le_max_left _ _
    · exact max_le (by norm_num) (min_le_left _ _)
  · unfold clamp
    split_ifs with h1 h2
    · rw [min_eq_right (by omega), max_eq_left (by omega)]
    · rw [min_eq_left (by omega), max_eq_right (by omega)]
    · rw [min_eq_right (by omega), max_eq_right (by omega)]
  · rintro n ⟨h0, h1⟩
    unfold clamp
    rw [jsRound_intCast, min_eq_right h1, max_eq_right h0]

/-! ## Shadows and highlights on one sample -/

theorem shadowsChannel_of_ge (amount : ℚ) (c : Nat) (h : 128 ≤ c) :
    shadowsChannel amount c = c := by
  unfold shadowsChannel
  have hc : (128 : ℚ) ≤ (c : ℚ) := by exact_mod_cast h
  have : ¬ ((c : ℚ) / 255 < 0.5) := by
    rw [not_lt, le_div_iff₀ (by norm_num)]
    norm_num
    linarith
  simp only [this, if_false]

theorem highlightsChannel_of_le (amount : ℚ) (c : Nat) (h : c ≤ 127) :
    highlightsChannel amount c = c := by
  unfold highlightsChannel
  have hc : (c : ℚ) ≤ 127 := by exact_mod_cast h
  have : ¬ ((c : ℚ) / 255 > 0.5) := by
    rw [gt_iff_lt, not_lt, div_le_iff₀ (by norm_num)]
    norm_num
    linarith
  simp only [this, if_false]

theorem normalized_ge_half_iff (c : Nat) : (0.5 : ℚ) ≤ (c : ℚ) / 255 ↔ 128 ≤ c := by
  rw [le_div_iff₀ (by norm_num)]
  constructor
  · intro h
    have h2 : (127 : ℚ) < (c : ℚ) := by norm_num at h; linarith
    exact_mod_cast h2
  · intro h
    have hc : (128 : ℚ) ≤ (c : ℚ) := by exact_mod_cast h
    norm_num
    linarith

theorem normalized_le_half_iff (c : Nat) : (c : ℚ) / 255 ≤ 0.5 ↔ c ≤ 127 := by
  rw [div_le_iff₀ (by norm_num)]
  constructor
  · intro h
    have h2 : (c : ℚ) < 128 := by norm_num at h; linarith
    have : c < 128 := by exact_mod_cast h2
    omega
  · intro h
    have hc : (c : ℚ) ≤ 127 := by exact_mod_cast h
    norm_num
    linarith

theorem getElem?_mapChannel_fixed (d : Buffer) (g : Nat → Nat) (j i c : Nat)
    (hd : d[i]? = some c) (hg : g c = c) : (mapChannel d j g)[i]? = some c := by
  by_cases hji : j = i
  · subst hji
    unfold mapChannel
    rw [hd]
    simp only [hg]
    rw [List.getElem?_set_eq_of_lt]
    exact (List.getElem?_eq_some.mp hd).1
  · rw [getElem?_mapChannel_ne _ _ hji, hd]

theorem adjustShadows_fixed (d : Buffer) (value : ℤ) (i c : Nat) (hd : d[i]? = some c)
    (hg : shadowsChannel ((value : ℚ) / 100) c = c) :
    (adjustShadows d value)[i]? = some c := by
  unfold adjustShadows
  refine forStep4_induct (fun acc => acc[i]? = some c) _ _ d hd ?_
  intro k acc h
  simp only
  exact getElem?_mapChannel_fixed _ _ _ _ _
    (getElem?_mapChannel_fixed _ _ _ _ _ (getElem?_mapChannel_fixed _ _ _ _ _ h hg) hg) hg

theorem adjustHighlights_fixed (d : Buffer) (value : ℤ) (i c : Nat) (hd : d[i]? = some c)
    (hg : highlightsChannel ((value : ℚ) / 100) c = c) :
    (adjustHighlights d value)[i]? = some c := by
  unfold adjustHighlights
  refine forStep4_induct (fun acc => acc[i]? = some c) _ _ d hd ?_
  intro k acc h
  simp only
  exact getElem?_mapChannel_fixed _ _ _ _ _
    (getElem?_mapChannel_fixed _ _ _ _ _ (getElem?_mapChannel_fixed _ _ _ _ _ h hg) hg) hg

/-- C4: for every buffer, every value and every sample `c` stored at an index `i`:
when the normalized value `c / 255` is at least 0.5 (that is `c ≥ 128`),
`adjustShadows` leaves the sample as it is; when `c / 255` is at most 0.5 (that is
`c ≤ 127`), `adjustHighlights` leaves it as it is. -/
theorem shadows_highlights_frame (d : Buffer) (value : ℤ) (i c : Nat)
    (hd : d[i]? = some c) :
    (((0.5 : ℚ) ≤ (c : ℚ) / 255 ↔ 128 ≤ c) ∧ ((c : ℚ) / 255 ≤ 0.5 ↔ c ≤ 127)) ∧
    ((0.5 : ℚ) ≤ (c : ℚ) / 255 → (adjustShadows d value)[i]? = some c) ∧
    ((c : ℚ) / 255 ≤ 0.5 → (adjustHighlights d value)[i]? = some c) := by
  refine ⟨⟨normalized_ge_half_iff c, normalized_le_half_iff c⟩, ?_, ?_⟩
  · intro h
    exact adjustShadows_fixed d value i c hd
      (shadowsChannel_of_ge _ c ((normalized_ge_half_iff c).mp h))
  · intro h
    exact adjustHighlights_fixed d value i c hd
      (highlightsChannel_of_le _ c ((normalized_le_half_iff c).mp h))

/-- Witness of C4: the red sample 200 of a one-pixel buffer at value 100. -/
theorem shadows_highlights_frame_witness :
    ([200, 100, 50, 255] : Buffer)[0]? = some 200 ∧
    (adjustShadows [200, 100, 50, 255] 100)[0]? = some 200 :=
  ⟨rfl, (shadows_highlights_frame [200, 100, 50, 255] 100 0 200 rfl).2.1 (by norm_num)⟩

theorem clamp_eq_of_mem_Ico (v : ℚ) (n : ℤ) (h0 : 0 ≤ n) (h1 : n ≤ 255)
    (hl : (n : ℚ) - 1 / 2 ≤ v) (hu : v < (n : ℚ) + 1 / 2) : clamp v = n := by
  have hr : jsRound v = n := by
    unfold jsRound
    rw [Int.floor_eq_iff]
    constructor <;> linarith
  unfold clamp
  rw [hr, min_eq_right h1, max_eq_right h0]

theorem highlightsChannel_128 (value : ℤ) (h0 : -100 < value) (h1 : value ≤ 100) :
    highlightsChannel ((value : ℚ) / 100) 128 = 128 := by
  have hq0 : (-100 : ℚ) < (value : ℚ) := by exact_mod_cast h0
  have hq1 : (value : ℚ) ≤ 100 := by exact_mod_cast h1
  unfold highlightsChannel
  have hgt : (((128 : Nat) : ℚ) / 255 > 0.5) := by norm_num
  simp only [hgt, if_true]
  rw [clamp_eq_of_mem_Ico _ 128 (by norm_num) (by norm_num)]
  · rfl
  · norm_num
    linarith
  · norm_num
    linarith

theorem highlightsChannel_128_neg100 :
    highlightsChannel (((-100 : ℤ) : ℚ) / 100) 128 = 129 := by
  unfold highlightsChannel
  have hgt : (((128 : Nat) : ℚ) / 255 > 0.5) := by norm_num
  simp only [hgt, if_true]
  rw [clamp_eq_of_mem_Ico _ 129 (by norm_num) (by norm_num)]
  · rfl
  · norm_num
  · norm_num

theorem adjustShadows_128 (d : Buffer) (value : ℤ) (i : Nat) (hd : d[i]? = some 128) :
    (adjustShadows d value)[i]? = some 128 :=
  adjustShadows_fixed d value i 128 hd (shadowsChannel_of_ge _ 128 (le_refl _))

/-- C5 fails as stated: at value -100, `adjustHighlights` moves the samples 128 of the
one-pixel buffer (128, 128, 128, 255) to 129 (128/255 is above 0.5, and 128.5 rounds
up), so the sample at index 0 is no longer 128. -/
theorem adjustHighlights_128_counterexample :
    (-100 ≤ (-100 : ℤ) ∧ (-100 : ℤ) ≤ 100) ∧
    ([128, 128, 128, 255] : Buffer)[0]? = some 128 ∧
    adjustHighlights [128, 128, 128, 255] (-100) = [129, 129, 129, 255] ∧
    (adjustHighlights [128, 128, 128, 255] (-100))[0]? ≠ some 128 := by
  have h3 : adjustHighlights [128, 128, 128, 255] (-100) = [129, 129, 129, 255] := by
    have hc := highlightsChannel_128_neg100
    simp [adjustHighlights, forStep4_eq_foldl, mapChannel, List.range_succ]
    simpa using hc
  refine ⟨by decide, rfl, h3, ?_⟩
  rw [h3]
  decide

/-- C5, amended: a sample 128 is left at 128 by `adjustShadows` for every value of
`[-100, 100]`, and by `adjustHighlights` for every value of `[-99, 100]`; at value
-100 the highlights transform of one sample sends 128 to 129. -/
theorem shadows_highlights_128 (d : Buffer) (value : ℤ) (i : Nat)
    (hlo : -100 ≤ value) (hhi : value ≤ 100) (hd : d[i]? = some 128) :
    (adjustShadows d value)[i]? = some 128 ∧
    (-99 ≤ value → (adjustHighlights d value)[i]? = some 128) ∧
    highlightsChannel (((-100 : ℤ) : ℚ) / 100) 128 = 129 := by
  refine ⟨adjustShadows_128 d value i hd, ?_, highlightsChannel_128_neg100⟩
  intro h99
  exact adjustHighlights_fixed d value i 128 hd
    (highlightsChannel_128 value (by omega) hhi)

/-- Witness of the amended C5: the buffer (128, 128, 128, 255) at value 100. -/
theorem shadows_highlights_128_witness :
    (-100 ≤ (100 : ℤ) ∧ (100 : ℤ) ≤ 100 ∧ ([128, 128, 128, 255] : Buffer)[0]? = some 128) ∧
    (adjustShadows [128, 128, 128, 255] 100)[0]? = some 128 ∧
    (adjustHighlights [128, 128, 128, 255] 100)[0]? = some 128 :=
  ⟨⟨by decide, by decide, rfl⟩,
    (shadows_highlights_128 [128, 128, 128, 255] 100 0 (by decide) (by decide) rfl).1,
    (shadows_highlights_128 [128, 128, 128, 255] 100 0 (by decide) (by decide) rfl).2.1
      (by decide)⟩

/-! ## The histogram tally -/

theorem sum_set_getD_succ (h : List Nat) (x : Nat) (hx : x < h.length) :
    (h.set x (h.getD x 0 + 1)).sum = h.sum + 1 := by
  induction h generalizing x with
  | nil => simp at hx
  | cons a t ih =>
    cases x with
    | zero => simp; omega
    | succ x =>
      have hx2 : x < t.length := by simpa using hx
      have := ih x hx2
      simp only [List.set_cons_succ, List.sum_cons, List.getD_cons_succ] at this ⊢
      omega

theorem bump_length (h : List Nat) (v : Option Nat) : (bump h v).length = h.length := by
  unfold bump
  split <;> simp

theorem bump_sum (h : List Nat) (x : Nat) (hx : x < h.length) :
    (bump h (some x)).sum = h.sum + 1 := by
  unfold bump
  exact sum_set_getD_succ h x hx

/-- The tally after the first `m` iterations of the loop of lines 405-409. -/
theorem tally_prefix (d : Buffer) (hd : IsPixelBuffer d) (m : Nat) (hm : 4 * m ≤ d.length) :
    let t := (List.range m).foldl
      (fun (acc : List Nat × List Nat × List Nat) k =>
        (bump acc.1 d[4 * k]?, bump acc.2.1 d[4 * k + 1]?, bump acc.2.2 d[4 * k + 2]?))
      (List.replicate 256 0, List.replicate 256 0, List.replicate 256 0)
    (t.1.length = 256 ∧ t.1.sum = m) ∧ (t.2.1.length = 256 ∧ t.2.1.sum = m) ∧
      (t.2.2.length = 256 ∧ t.2.2.sum = m) := by
  induction m with
  | zero =>
    have hs : (List.replicate 256 0 : List Nat).sum = 0 := by
      rw [List.sum_replicate, smul_zero]
    simp only [List.range_zero, List.foldl_nil, List.length_replicate, hs, and_self]
  | succ m ih =>
    have ih2 := ih (by omega)
    simp only at ih2 ⊢
    rw [List.range_succ, List.foldl_append]
    simp only [List.foldl_cons, List.foldl_nil]
    obtain ⟨⟨l1, s1⟩, ⟨l2, s2⟩, ⟨l3, s3⟩⟩ := ih2
    have byte : ∀ j, j < d.length → ∃ x, d[j]? = some x ∧ x < 256 := by
      intro j hj
      refine ⟨d[j], List.getElem?_eq_getElem hj, hd.2 _ (List.getElem_mem hj)⟩
    obtain ⟨x0, e0, b0⟩ := byte (4 * m) (by omega)
    obtain ⟨x1, e1, b1⟩ := byte (4 * m + 1) (by omega)
    obtain ⟨x2, e2, b2⟩ := byte (4 * m + 2) (by omega)
    rw [e0, e1, e2]
    refine ⟨⟨?_, ?_⟩, ⟨?_, ?_⟩, ⟨?_, ?_⟩⟩
    · rw [bump_length, l1]
    · rw [bump_sum _ _ (by omega), s1]
    · rw [bump_length, l2]
    · rw [bump_sum _ _ (by omega), s2]
    · rw [bump_length, l3]
    · rw [bump_sum _ _ (by omega), s3]

/-- C6: for every pixel buffer (whole RGBA pixels of byte samples), each of the three
count arrays of `updateHistogram` has 256 buckets and its counts add up to the number
of pixels, `length / 4`. -/
theorem updateHistogram_sum (d : Buffer) (hd : IsPixelBuffer d) :
    ((updateHistogram d).rHist.length = 256 ∧ (updateHistogram d).rHist.sum = d.length / 4) ∧
    ((updateHistogram d).gHist.length = 256 ∧ (updateHistogram d).gHist.sum = d.length / 4) ∧
    ((updateHistogram d).bHist.length = 256 ∧ (updateHistogram d).bHist.sum = d.length / 4) := by
  have h4 : (d.length + 3) / 4 = d.length / 4 := by have := hd.1; omega
  have := tally_prefix d hd (d.length / 4) (by have := hd.1; omega)
  simp only [updateHistogram, tally, forStep4_eq_foldl, h4]
  exact this

/-- Witness of C6: a two-pixel buffer. -/
theorem updateHistogram_sum_witness :
    IsPixelBuffer [10, 20, 30, 255, 10, 0, 254, 255] ∧
    (updateHistogram [10, 20, 30, 255, 10, 0, 254, 255]).rHist.sum
      = [10, 20, 30, 255, 10, 0, 254, 255].length / 4 :=
  ⟨by decide, (updateHistogram_sum [10, 20, 30, 255, 10, 0, 254, 255] (by decide)).1.2⟩

/-! ## The histogram scale -/

theorem maxStep_spec (r g b : List Nat) (m j : Nat) :
    m ≤ maxStep r g b j m ∧
    (r.getD j 0 ≤ maxStep r g b j m ∧ g.getD j 0 ≤ maxStep r g b j m ∧
      b.getD j 0 ≤ maxStep r g b j m) ∧
    (maxStep r g b j m = m ∨ maxStep r g b j m = r.getD j 0 ∨
      maxStep r g b j m = g.getD j 0 ∨ maxStep r g b j m = b.getD j 0) := by
  unfold maxStep
  simp only
  split_ifs <;> omega

theorem foldl_maxStep_spec (r g b : List Nat) (js : List Nat) (m : Nat) :
    m ≤ js.foldl (fun acc k => maxStep r g b k acc) m ∧
    (∀ j ∈ js, r.getD j 0 ≤ js.foldl (fun acc k => maxStep r g b k acc) m ∧
      g.getD j 0 ≤ js.foldl (fun acc k => maxStep r g b k acc) m ∧ b.getD j 0 ≤ js.foldl (fun acc k => maxStep r g b k acc) m) ∧
    (js.foldl (fun acc k => maxStep r g b k acc) m = m ∨
      ∃ j ∈ js, js.foldl (fun acc k => maxStep r g b k acc) m = r.getD j 0 ∨
        js.foldl (fun acc k => maxStep r g b k acc) m = g.getD j 0 ∨ js.foldl (fun acc k => maxStep r g b k acc) m = b.getD j 0) := by
  induction js generalizing m with
  | nil => simp
  | cons j js ih =>
    obtain ⟨h1, h2, h3⟩ := ih (maxStep r g b j m)
    obtain ⟨s1, s2, s3⟩ := maxStep_spec r g b m j
    simp only [List.foldl_cons]
    refine ⟨le_trans s1 h1, ?_, ?_⟩
    · intro j' hj'
      rcases List.mem_cons.mp hj' with rfl | hmem
      · exact ⟨le_trans s2.1 h1, le_trans s2.2.1 h1, le_trans s2.2.2 h1⟩
      · exact h2 j' hmem
    · rcases h3 with h3 | ⟨j', hj', h3⟩
      · rcases s3 with s3 | s3
        · left; rw [h3, s3]
        · right
          exact ⟨j, List.mem_cons_self _ _, by rw [h3]; exact s3⟩
      · right
        exact ⟨j', List.mem_cons_of_mem _ hj', h3⟩

theorem mem_range'_one_253 (j : Nat) : j ∈ List.range' 1 253 ↔ 1 ≤ j ∧ j ≤ 253 := by
  rw [List.mem_range'_1]
  omega

theorem histMax_spec (r g b : List Nat) :
    1 ≤ histMax r g b ∧
    ((∃ j, (1 ≤ j ∧ j ≤ 253) ∧ (r.getD j 0 ≠ 0 ∨ g.getD j 0 ≠ 0 ∨ b.getD j 0 ≠ 0)) →
      (∀ j, 1 ≤ j ∧ j ≤ 253 →
        r.getD j 0 ≤ histMax r g b ∧ g.getD j 0 ≤ histMax r g b ∧
        b.getD j 0 ≤ histMax r g b) ∧
      (∃ j, (1 ≤ j ∧ j ≤ 253) ∧
        (histMax r g b = r.getD j 0 ∨ histMax r g b = g.getD j 0 ∨
         histMax r g b = b.getD j 0))) ∧
    ((∀ j, 1 ≤ j ∧ j ≤ 253 → r.getD j 0 = 0 ∧ g.getD j 0 = 0 ∧ b.getD j 0 = 0) →
      histMax r g b = 1) := by
  simp only [histMax]
  rw [forUpTo_eq_foldl 254 (maxStep r g b) 253 1 0 rfl]
  obtain ⟨-, h2, h3⟩ := foldl_maxStep_spec r g b (List.range' 1 253) 0
  simp only [mem_range'_one_253] at h2 h3
  generalize (List.range' 1 253).foldl (fun acc k => maxStep r g b k acc) 0 = M at h2 h3
  refine ⟨?_, ?_, ?_⟩
  · split_ifs <;> omega
  · rintro ⟨j, hj, hnz⟩
    have hb := h2 j hj
    have hM : M ≠ 0 := by omega
    rw [if_neg hM]
    refine ⟨h2, ?_⟩
    rcases h3 with h3 | ⟨j', hj', h3⟩
    · exact absurd h3 hM
    · exact ⟨j', hj', h3⟩
  · intro hz
    have hM : M = 0 := by
      rcases h3 with h3 | ⟨j', hj', h3⟩
      · exact h3
      · have := hz j' hj'
        omega
    rw [if_pos hM]

theorem getD_bump_ne (h : List Nat) (x j : Nat) (hne : x ≠ j) :
    (bump h (some x)).getD j 0 = h.getD j 0 := by
  unfold bump
  simp only [List.getD_eq_getElem?_getD, List.getElem?_set_ne hne]

/-- C8: for every buffer, with `r`, `g`, `b` the three count arrays of
`updateHistogram`: `maxVal ≥ 1` (so the division `count / maxVal` of the bar heights
never divides by zero); when some bucket 1 to 253 has a nonzero count, no count of a
bucket 1 to 253 exceeds `maxVal` and `maxVal` is the count of one of these buckets,
that is the greatest of them; and when they are all zero, `maxVal = 1`. -/
theorem updateHistogram_maxVal (d : Buffer) :
    1 ≤ (updateHistogram d).maxVal ∧
    ((∃ j, (1 ≤ j ∧ j ≤ 253) ∧ ((updateHistogram d).rHist.getD j 0 ≠ 0 ∨
        (updateHistogram d).gHist.getD j 0 ≠ 0 ∨ (updateHistogram d).bHist.getD j 0 ≠ 0)) →
      (∀ j, 1 ≤ j ∧ j ≤ 253 →
        (updateHistogram d).rHist.getD j 0 ≤ (updateHistogram d).maxVal ∧
        (updateHistogram d).gHist.getD j 0 ≤ (updateHistogram d).maxVal ∧
        (updateHistogram d).bHist.getD j 0 ≤ (updateHistogram d).maxVal) ∧
      (∃ j, (1 ≤ j ∧ j ≤ 253) ∧
        ((updateHistogram d).maxVal = (updateHistogram d).rHist.getD j 0 ∨
         (updateHistogram d).maxVal = (updateHistogram d).gHist.getD j 0 ∨
         (updateHistogram d).maxVal = (updateHistogram d).bHist.getD j 0))) ∧
    ((∀ j, 1 ≤ j ∧ j ≤ 253 → (updateHistogram d).rHist.getD j 0 = 0 ∧
        (updateHistogram d).gHist.getD j 0 = 0 ∧ (updateHistogram d).bHist.getD j 0 = 0) →
      (updateHistogram d).maxVal = 1) :=
  histMax_spec (tally d).1 (tally d).2.1 (tally d).2.2

/-- C7 at its failing input: on two pixels (254, 254, 254, 255) the red bucket 254,
which is neither of the extreme buckets 0 and 255, holds 2 samples, and `maxVal`
is 1: the loop `for (var j = 1; j < 254; j++)` stops before bucket 254. -/
theorem updateHistogram_maxVal_skips_254 :
    (updateHistogram [254, 254, 254, 255, 254, 254, 254, 255]).rHist.getD 254 0 = 2 ∧
    (updateHistogram [254, 254, 254, 255, 254, 254, 254, 255]).maxVal = 1 := by
  have ht : tally [254, 254, 254, 255, 254, 254, 254, 255] =
      (bump (bump (List.replicate 256 0) (some 254)) (some 254),
       bump (bump (List.replicate 256 0) (some 254)) (some 254),
       bump (bump (List.replicate 256 0) (some 254)) (some 254)) := by
    rw [tally, forStep4_eq_foldl]
    rfl
  refine ⟨by simp only [updateHistogram, ht]; rfl, ?_⟩
  have hz : ∀ j, 1 ≤ j ∧ j ≤ 253 →
      (bump (bump (List.replicate 256 0) (some 254)) (some 254)).getD j 0 = 0 := by
    intro j hj
    rw [getD_bump_ne _ _ _ (by omega), getD_bump_ne _ _ _ (by omega),
      List.getD_eq_getElem?_getD, List.getElem?_replicate]
    split <;> rfl
  simp only [updateHistogram, ht]
  exact (histMax_spec _ _ _).2.2 (fun j hj => ⟨hz j hj, hz j hj, hz j hj⟩)

/-! ## The skin-tone classifier -/

/-- C9: `isSkinTone r r r` is false for every number `r`, in particular for every
gray byte value `r = g = b` whatever its lightness; and `isSkinTone 198 141 111`
is true. -/
theorem isSkinTone_gray_sample :
    (∀ r : ℚ, isSkinTone r r r = false) ∧ isSkinTone 198 141 111 = true := by
  constructor
  · intro r
    simp [isSkinTone]
  · unfold isSkinTone
    norm_num [max_def, min_def]

/-! ## The smoothing blend -/

/-- C10: for every strength, every original buffer `oD` and every blurred buffer `bD`,
and whatever function `skin` the call `isSkinTone(r, g, b)` computes on the bytes
of a pixel, a pixel `k` of `oD` whose R, G, B samples are not classified as skin by it
keeps its four bytes (indices `4k` to `4k + 3`) through the smoothing blend, and so
through `applySkinSmoothing` for every blur primitive. -/
theorem smoothingBlend_nonskin (skin : Nat → Nat → Nat → Bool) (oD bD : Buffer)
    (amount : ℤ) (k r g b : Nat)
    (hr : oD[4 * k]? = some r) (hg : oD[4 * k + 1]? = some g)
    (hb : oD[4 * k + 2]? = some b) (hns : skin r g b = false) :
    ∀ c, c < 4 → (smoothingBlend skin oD bD amount)[4 * k + c]? = oD[4 * k + c]? ∧
      ∀ blur : Nat → Buffer → Buffer,
        (applySkinSmoothing blur skin oD amount)[4 * k + c]? = oD[4 * k + c]? := by
  suffices hmain : ∀ bD : Buffer, ∀ c, c < 4 →
      (smoothingBlend skin oD bD amount)[4 * k + c]? = oD[4 * k + c]? from
    fun c hc => ⟨hmain bD c hc, fun blur => hmain _ c hc⟩
  intro bD
  unfold smoothingBlend
  refine forStep4_induct (fun acc => ∀ c, c < 4 → acc[4 * k + c]? = oD[4 * k + c]?)
    _ _ oD (fun _ _ => rfl) ?_
  intro k' acc h
  simp only
  split
  · next r' g' b' e0 e1 e2 =>
    split
    · next hskin =>
      by_cases hk : k' = k
      · subst hk
        have h0 := h 0 (by omega)
        have h1 := h 1 (by omega)
        have h2 := h 2 (by omega)
        rw [Nat.add_zero, e0, hr] at h0
        rw [e1, hg] at h1
        rw [e2, hb] at h2
        cases h0; cases h1; cases h2
        rw [hns] at hskin
        exact absurd hskin (by decide)
      · intro c hc
        rw [getElem?_blendChannel_ne _ _ _ (by omega),
          getElem?_blendChannel_ne _ _ _ (by omega),
          getElem?_blendChannel_ne _ _ _ (by omega)]
        exact h c hc
    · exact h
  · exact h

/-- Witness of C10: the gray second pixel of a two-pixel buffer at strength 100, with
the classifier `isSkinTone`, which is false on every gray. -/
theorem smoothingBlend_nonskin_witness :
    (([198, 141, 111, 255, 90, 90, 90, 255] : Buffer)[4 * 1]? = some 90 ∧
      ([198, 141, 111, 255, 90, 90, 90, 255] : Buffer)[4 * 1 + 1]? = some 90 ∧
      ([198, 141, 111, 255, 90, 90, 90, 255] : Buffer)[4 * 1 + 2]? = some 90 ∧
      isSkinTone (90 : Nat) (90 : Nat) (90 : Nat) = false) ∧
    (smoothingBlend (fun r g b => isSkinTone r g b)
        [198, 141, 111, 255, 90, 90, 90, 255] [7, 7, 7, 7, 7, 7, 7, 7] 100)[4 * 1 + 0]?
      = ([198, 141, 111, 255, 90, 90, 90, 255] : Buffer)[4 * 1 + 0]? :=
  ⟨⟨rfl, rfl, rfl, by simp [isSkinTone]⟩,
    (smoothingBlend_nonskin (fun r g b => isSkinTone r g b)
      [198, 141, 111, 255, 90, 90, 90, 255] [7, 7, 7, 7, 7, 7, 7, 7] 100
      1 90 90 90 rfl rfl rfl (by simp [isSkinTone]) 0 (by decide)).1⟩

/-! ## Each pixel is processed once -/

/-- A loop body that writes only the samples `i`, `i + 1`, `i + 2` of the buffer. -/
theorem forStep4_pixel (n : Nat) (body : Nat → Buffer → Buffer) (d : Buffer)
    (hframe : ∀ k acc j, j ≠ 4 * k → j ≠ 4 * k + 1 → j ≠ 4 * k + 2 →
      (body (4 * k) acc)[j]? = acc[j]?) (k : Nat) :
    (¬ 4 * k < n → ∀ j, 4 * k ≤ j → (forStep4 n body d)[j]? = d[j]?) ∧
    (4 * k < n → ∃ X : Buffer, (∀ j, 4 * k ≤ j → X[j]? = d[j]?) ∧
      ∀ j, 4 * k ≤ j → j < 4 * (k + 1) →
        (forStep4 n body d)[j]? = (body (4 * k) X)[j]?) := by
  rw [forStep4_eq_foldl]
  have hA : ∀ m j, 4 * m ≤ j →
      ((List.range m).foldl (fun acc k => body (4 * k) acc) d)[j]? = d[j]? := by
    intro m
    induction m with
    | zero => intro j _; rfl
    | succ m ih =>
      intro j hj
      rw [List.range_succ, List.foldl_append]
      simp only [List.foldl_cons, List.foldl_nil]
      rw [hframe m _ j (by omega) (by omega) (by omega)]
      exact ih j (by omega)
  have hB : ∀ m, k + 1 ≤ m → ∀ j, j < 4 * (k + 1) →
      ((List.range m).foldl (fun acc k => body (4 * k) acc) d)[j]?
        = ((List.range (k + 1)).foldl (fun acc k => body (4 * k) acc) d)[j]? := by
    intro m hm
    induction m, hm using Nat.le_induction with
    | base => intro j _; rfl
    | succ m hm ih =>
      intro j hj
      rw [List.range_succ, List.foldl_append]
      simp only [List.foldl_cons, List.foldl_nil]
      rw [hframe m _ j (by omega) (by omega) (by omega)]
      exact ih j hj
  constructor
  · intro hk j hj
    exact hA _ j (by omega)
  · intro hk
    refine ⟨(List.range k).foldl (fun acc k => body (4 * k) acc) d, hA k, ?_⟩
    intro j _ hj
    rw [hB ((n + 3) / 4) (by omega) j hj, List.range_succ, List.foldl_append]
    rfl

theorem getElem?_updateChannel (d : Buffer) (f : ℚ → ℤ) (j i : Nat) :
    (updateChannel d j f)[i]?
      = if j = i then (d[i]?).map (fun x => (f (x : ℚ)).toNat) else d[i]? := by
  split_ifs with h
  · subst h
    unfold updateChannel
    cases hd : d[j]? with
    | none => simp [hd]
    | some x =>
      have hlt : j < d.length := (List.getElem?_eq_some.mp hd).1
      simp [List.getElem?_set_self hlt]
  · exact getElem?_updateChannel_ne d f h

/-- The sample at index `j` after `adjustBrightness`: an alpha sample is the input
sample, an R, G or B sample `x` is `clamp(x + value * 2.55)`. -/
theorem getElem?_adjustBrightness (d : Buffer) (value : ℤ) (j : Nat) :
    (adjustBrightness d value)[j]?
      = if j % 4 = 3 then d[j]?
        else (d[j]?).map (fun x => (clamp ((x : ℚ) + (value : ℚ) * 2.55)).toNat) := by
  split_ifs with h3
  · exact adjustBrightness_alpha d value j h3
  · unfold adjustBrightness
    simp only
    obtain ⟨hout, hin⟩ := forStep4_pixel d.length
      (fun i d =>
        updateChannel (updateChannel (updateChannel d i
          (fun x => clamp (x + (value : ℚ) * 2.55))) (i + 1)
          (fun x => clamp (x + (value : ℚ) * 2.55))) (i + 2)
          (fun x => clamp (x + (value : ℚ) * 2.55))) d
      (by
        intro k acc i h0 h1 h2
        simp only
        rw [getElem?_updateChannel_ne _ _ (Ne.symm h2),
          getElem?_updateChannel_ne _ _ (Ne.symm h1),
          getElem?_updateChannel_ne _ _ (Ne.symm h0)]) (j / 4)
    by_cases hk : 4 * (j / 4) < d.length
    · obtain ⟨X, hX, hres⟩ := hin hk
      rw [hres j (by omega) (by omega)]
      simp only [getElem?_updateChannel]
      have e0 := hX j (by omega)
      split_ifs <;> first | omega | simp [e0]
    · rw [hout hk j (by omega)]
      have : d[j]? = none := List.getElem?_eq_none (by omega)
      simp [this]

/-! ## Brightness -/

theorem jsRound_mono {v w : ℚ} (h : v ≤ w) : jsRound v ≤ jsRound w := by
  unfold jsRound
  exact Int.floor_mono (by linarith)

theorem clamp_mono {v w : ℚ} (h : v ≤ w) : clamp v ≤ clamp w := by
  unfold clamp
  exact max_le_max le_rfl (min_le_min le_rfl (jsRound_mono h))

/-- C13: for every channel value `c` and all integers `v1 ≤ v2` (in particular in
`[-100, 100]`), `clamp(c + v1 * 2.55) ≤ clamp(c + v2 * 2.55)`; and so, index by index,
no sample of `adjustBrightness d v1` exceeds the same sample of
`adjustBrightness d v2`. -/
theorem brightness_monotone (c : Nat) (v1 v2 : ℤ) (h : v1 ≤ v2) :
    clamp ((c : ℚ) + (v1 : ℚ) * 2.55) ≤ clamp ((c : ℚ) + (v2 : ℚ) * 2.55) ∧
    ∀ (d : Buffer) (j x y : Nat), (adjustBrightness d v1)[j]? = some x →
      (adjustBrightness d v2)[j]? = some y → x ≤ y := by
  have hq : (v1 : ℚ) ≤ (v2 : ℚ) := by exact_mod_cast h
  have hmono : ∀ z : Nat,
      clamp ((z : ℚ) + (v1 : ℚ) * 2.55) ≤ clamp ((z : ℚ) + (v2 : ℚ) * 2.55) := by
    intro z
    apply clamp_mono
    have : (0 : ℚ) ≤ 2.55 := by norm_num
    nlinarith
  refine ⟨hmono c, ?_⟩
  intro d j x y hx hy
  rw [getElem?_adjustBrightness] at hx hy
  split_ifs at hx hy with h3
  · rw [hx] at hy
    cases hy
    exact le_rfl
  · cases hd : d[j]? with
    | none => rw [hd] at hx; cases hx
    | some z =>
      rw [hd] at hx hy
      have hx2 : (clamp ((z : ℚ) + (v1 : ℚ) * 2.55)).toNat = x := Option.some.inj hx
      have hy2 : (clamp ((z : ℚ) + (v2 : ℚ) * 2.55)).toNat = y := Option.some.inj hy
      rw [← hx2, ← hy2]
      exact Int.toNat_le_toNat (hmono z)

/-- Witness of C13: values 10 and 50 on a one-pixel buffer. -/
theorem brightness_monotone_witness :
    (10 : ℤ) ≤ 50 ∧
    clamp (((100 : Nat) : ℚ) + ((10 : ℤ) : ℚ) * 2.55)
      ≤ clamp (((100 : Nat) : ℚ) + ((50 : ℤ) : ℚ) * 2.55) :=
  ⟨by decide, (brightness_monotone 100 10 50 (by decide)).1⟩

/-! ## The end-to-end sample -/

theorem getElem?_solidBuffer (r g b a n : Nat) : ∀ j : Nat,
    (solidBuffer r g b a n)[j]?
      = if j < 4 * n then
          some (if j % 4 = 0 then r else if j % 4 = 1 then g
            else if j % 4 = 2 then b else a)
        else none := by
  induction n with
  | zero => intro j; simp [solidBuffer]
  | succ n ih =>
    intro j
    match j with
    | 0 => simp [solidBuffer]
    | 1 => simp [solidBuffer]; omega
    | 2 => simp [solidBuffer]; omega
    | 3 => simp [solidBuffer]; omega
    | j + 4 =>
      simp only [solidBuffer, List.getElem?_cons_succ, ih j, Nat.add_mod_right]
      have : (j + 4 < 4 * (n + 1)) ↔ (j < 4 * n) := by omega
      simp only [this]

theorem clamp_128_plus_50 : clamp (((128 : Nat) : ℚ) + ((50 : ℤ) : ℚ) * 2.55) = 255 := by
  have : (((128 : Nat) : ℚ) + ((50 : ℤ) : ℚ) * 2.55) + 1 / 2 = ((256 : ℤ) : ℚ) := by norm_num
  unfold clamp jsRound
  rw [this, Int.floor_intCast]
  rfl

/-- C14: for every number `n` of pixels (the 4×4 buffer is `n = 16`), every blur
primitive and every skin classifier, `processImage` with brightness 50 and the other five settings 0 turns the
buffer of `n` pixels (128, 128, 128, 255) into the buffer of `n` pixels
(255, 255, 255, 255): each R, G, B sample is `clamp(128 + 127.5) = 255` and alpha
stays 255. -/
theorem processImage_midgray_brightness50 (blur : Nat → Buffer → Buffer)
    (skin : Nat → Nat → Nat → Bool) (n : Nat) :
    processImage blur skin
      { brightness := 50, contrast := 0, shadows := 0, highlights := 0,
        smoothing := 0, sharpness := 0 } (solidBuffer 128 128 128 255 n)
      = solidBuffer 255 255 255 255 n ∧
    clamp (((128 : Nat) : ℚ) + ((50 : ℤ) : ℚ) * 2.55) = 255 := by
  refine ⟨?_, clamp_128_plus_50⟩
  have hp : processImage blur skin
      { brightness := 50, contrast := 0, shadows := 0, highlights := 0,
        smoothing := 0, sharpness := 0 } (solidBuffer 128 128 128 255 n)
      = adjustBrightness (solidBuffer 128 128 128 255 n) 50 := by
    simp [processImage]
  rw [hp]
  apply List.ext_getElem?
  intro j
  rw [getElem?_adjustBrightness, getElem?_solidBuffer, getElem?_solidBuffer]
  have hc : clamp ((128 : ℚ) + 50 * 2.55) = 255 := by simpa using clamp_128_plus_50
  by_cases hj : j < 4 * n
  · simp only [hj, if_true]
    have : j % 4 = 0 ∨ j % 4 = 1 ∨ j % 4 = 2 ∨ j % 4 = 3 := by omega
    rcases this with h | h | h | h <;> simp [h, hc]
  · simp [hj]

/-! ## The working dimensions -/

theorem jsRound_natCast (n : Nat) : jsRound ((n : ℚ)) = (n : ℤ) := by
  have := jsRound_intCast (α := ℚ) (n : ℤ)
  simpa using this

/-- The capped dimensions when the width is the longer edge. -/
theorem capSize_wide (M w h : Nat) (hh : 1 ≤ h) (hwh : h ≤ w) (hM : M < w) :
    capSize M w h = ((M : ℤ), jsRound ((h : ℚ) * (M : ℚ) / (w : ℚ))) := by
  have hw0 : (0 : ℚ) < (w : ℚ) := by exact_mod_cast (by omega : 0 < w)
  have hh0 : (0 : ℚ) < (h : ℚ) := by exact_mod_cast (by omega : 0 < h)
  have hle : (h : ℚ) ≤ (w : ℚ) := by exact_mod_cast hwh
  have hM0 : (0 : ℚ) ≤ (M : ℚ) := by exact_mod_cast Nat.zero_le M
  have hmin : min ((M : ℚ) / (w : ℚ)) ((M : ℚ) / (h : ℚ)) = (M : ℚ) / (w : ℚ) :=
    min_eq_left (div_le_div_of_nonneg_left hM0 hh0 hle)
  unfold capSize
  rw [if_pos (Or.inl hM)]
  simp only [hmin]
  rw [mul_div_cancel₀ _ (ne_of_gt hw0), jsRound_natCast, mul_div_assoc]

/-- The capped dimensions when the height is the longer edge. -/
theorem capSize_tall (M w h : Nat) (hw : 1 ≤ w) (hwh : w ≤ h) (hM : M < h) :
    capSize M w h = (jsRound ((w : ℚ) * (M : ℚ) / (h : ℚ)), (M : ℤ)) := by
  have hw0 : (0 : ℚ) < (w : ℚ) := by exact_mod_cast (by omega : 0 < w)
  have hh0 : (0 : ℚ) < (h : ℚ) := by exact_mod_cast (by omega : 0 < h)
  have hle : (w : ℚ) ≤ (h : ℚ) := by exact_mod_cast hwh
  have hM0 : (0 : ℚ) ≤ (M : ℚ) := by exact_mod_cast Nat.zero_le M
  have hmin : min ((M : ℚ) / (w : ℚ)) ((M : ℚ) / (h : ℚ)) = (M : ℚ) / (h : ℚ) :=
    min_eq_right (div_le_div_of_nonneg_left hM0 hw0 hle)
  unfold capSize
  rw [if_pos (Or.inr hM)]
  simp only [hmin]
  rw [mul_div_cancel₀ _ (ne_of_gt hh0), jsRound_natCast, mul_div_assoc]

/-- The rounded shorter edge `jsRound (s * M / l)` for `1 ≤ s ≤ l`: between 0 and `M`,
within 1/2 of the exact value, and no integer is nearer to it. -/
theorem jsRound_short_edge (M s l : Nat) (hs : 1 ≤ s) (hsl : s ≤ l) :
    (0 ≤ jsRound ((s : ℚ) * (M : ℚ) / (l : ℚ)) ∧
      jsRound ((s : ℚ) * (M : ℚ) / (l : ℚ)) ≤ (M : ℤ)) ∧
    |(s : ℚ) * (M : ℚ) / (l : ℚ) - ((jsRound ((s : ℚ) * (M : ℚ) / (l : ℚ)) : ℤ) : ℚ)|
      ≤ 1 / 2 ∧
    ∀ m : ℤ,
      |(s : ℚ) * (M : ℚ) / (l : ℚ) - ((jsRound ((s : ℚ) * (M : ℚ) / (l : ℚ)) : ℤ) : ℚ)|
        ≤ |(s : ℚ) * (M : ℚ) / (l : ℚ) - (m : ℚ)| := by
  have hl0 : (0 : ℚ) < (l : ℚ) := by exact_mod_cast (by omega : 0 < l)
  have hs0 : (0 : ℚ) ≤ (s : ℚ) := by exact_mod_cast Nat.zero_le s
  have hle : (s : ℚ) ≤ (l : ℚ) := by exact_mod_cast hsl
  have hM0 : (0 : ℚ) ≤ (M : ℚ) := by exact_mod_cast Nat.zero_le M
  have hx0 : (0 : ℚ) ≤ (s : ℚ) * (M : ℚ) / (l : ℚ) := by positivity
  have hxM : (s : ℚ) * (M : ℚ) / (l : ℚ) ≤ (M : ℚ) := by
    rw [div_le_iff₀ hl0]
    nlinarith
  obtain ⟨b1, b2⟩ := jsRound_bounds ((s : ℚ) * (M : ℚ) / (l : ℚ))
  refine ⟨⟨?_, ?_⟩, ?_, jsRound_nearest _⟩
  · have := jsRound_mono hx0
    have h0 : jsRound (0 : ℚ) = 0 := by
      simpa using jsRound_natCast 0
    omega
  · have := jsRound_mono hxM
    rw [jsRound_natCast] at this
    exact this
  · rw [abs_le]
    constructor <;> linarith

/-- C12: for a source image of width `w ≥ 1` and height `h ≥ 1`, with the cap
`M = 1200` and the dimensions `f` of `setupCanvases`, or `M = 2048` and those of
`downloadImage`: when `max w h ≤ M`, `f = (w, h)`; otherwise the longer edge of `f` is
exactly `M`, and the shorter edge lies in `[0, M]`, is within 1/2 of the exact value
`short * M / long`, and no integer is nearer to that value. -/
theorem working_size (w h : Nat) (hw : 1 ≤ w) (hh : 1 ≤ h) (M : Nat) (f : ℤ × ℤ)
    (hf : (M = 1200 ∧ f = setupCanvases w h) ∨ (M = 2048 ∧ f = downloadImage w h)) :
    (max w h ≤ M → f = ((w : ℤ), (h : ℤ))) ∧
    (M < max w h →
      (h ≤ w → f.1 = (M : ℤ) ∧ (0 ≤ f.2 ∧ f.2 ≤ (M : ℤ)) ∧
        |(h : ℚ) * (M : ℚ) / (w : ℚ) - (f.2 : ℚ)| ≤ 1 / 2 ∧
        ∀ m : ℤ, |(h : ℚ) * (M : ℚ) / (w : ℚ) - (f.2 : ℚ)|
          ≤ |(h : ℚ) * (M : ℚ) / (w : ℚ) - (m : ℚ)|) ∧
      (w ≤ h → f.2 = (M : ℤ) ∧ (0 ≤ f.1 ∧ f.1 ≤ (M : ℤ)) ∧
        |(w : ℚ) * (M : ℚ) / (h : ℚ) - (f.1 : ℚ)| ≤ 1 / 2 ∧
        ∀ m : ℤ, |(w : ℚ) * (M : ℚ) / (h : ℚ) - (f.1 : ℚ)|
          ≤ |(w : ℚ) * (M : ℚ) / (h : ℚ) - (m : ℚ)|)) := by
  have key : f = capSize M w h := by
    rcases hf with ⟨hM, hf⟩ | ⟨hM, hf⟩
    · rw [hf, hM]; rfl
    · rw [hf, hM]; rfl
  subst key
  refine ⟨?_, ?_⟩
  · intro hmax
    have h1 : w ≤ M := le_trans (le_max_left w h) hmax
    have h2 : h ≤ M := le_trans (le_max_right w h) hmax
    unfold capSize
    rw [if_neg (by omega)]
  · intro hmax
    constructor
    · intro hwh
      have hMw : M < w := by rwa [max_eq_left hwh] at hmax
      rw [capSize_wide M w h hh hwh hMw]
      exact ⟨rfl, jsRound_short_edge M h w hh hwh⟩
    · intro hwh
      have hMh : M < h := by rwa [max_eq_right hwh] at hmax
      rw [capSize_tall M w h hw hwh hMh]
      exact ⟨rfl, jsRound_short_edge M w h hw hwh⟩

/-- Witness of C12: a 4000 × 3000 image in the preview is 1200 wide. -/
theorem working_size_witness :
    ((1 : Nat) ≤ 4000 ∧ (1 : Nat) ≤ 3000 ∧ (1200 : Nat) < max 4000 3000 ∧
      (3000 : Nat) ≤ 4000) ∧
    (setupCanvases 4000 3000).1 = ((1200 : Nat) : ℤ) :=
  ⟨by decide,
    (((working_size 4000 3000 (by decide) (by decide) 1200 (setupCanvases 4000 3000)
      (Or.inl ⟨rfl, rfl⟩)).2 (by decide)).1 (by decide)).1⟩

/-! ## The smoothing blend at strengths 0 and 100 -/

theorem set_of_getElem?_eq (l : List Nat) (j x : Nat) (h : l[j]? = some x) :
    l.set j x = l := by
  apply List.ext_getElem?
  intro i
  by_cases hji : j = i
  · subst hji
    rw [List.getElem?_set_self (List.getElem?_eq_some.mp h).1, h]
  · rw [List.getElem?_set_ne hji]

theorem clamp_natCast (x : Nat) (hx : x < 256) : clamp ((x : ℚ)) = (x : ℤ) := by
  unfold clamp
  rw [jsRound_natCast, min_eq_right (by omega), max_eq_right (by omega)]

theorem length_blendChannel (oD bD : Buffer) (j : Nat) (e : ℚ → ℚ) :
    (blendChannel oD bD j e).length = oD.length := by
  unfold blendChannel
  split <;> simp

theorem getElem?_blendChannel_self (oD bD : Buffer) (j y : Nat) (e : ℚ → ℚ)
    (hj : j < oD.length) (hb : bD[j]? = some y) :
    (blendChannel oD bD j e)[j]? = some (clamp (e (y : ℚ))).toNat := by
  unfold blendChannel
  rw [hb]
  simp only
  rw [List.getElem?_set_self hj]

theorem blendChannel_eq_self (oD bD : Buffer) (j x y : Nat) (e : ℚ → ℚ)
    (ho : oD[j]? = some x) (hb : bD[j]? = some y) (hx : x < 256)
    (he : e (y : ℚ) = (x : ℚ)) : blendChannel oD bD j e = oD := by
  unfold blendChannel
  rw [hb]
  simp only
  rw [he, clamp_natCast x hx, Int.toNat_ofNat]
  exact set_of_getElem?_eq oD j x ho

theorem getElem?_byte (d : Buffer) (hd : IsPixelBuffer d) (j x : Nat) (h : d[j]? = some x) :
    x < 256 := by
  obtain ⟨hj, hx⟩ := List.getElem?_eq_some.mp h
  rw [← hx]
  exact hd.2 _ (List.getElem_mem hj)

theorem getElem?_of_lt (d : Buffer) (j : Nat) (h : j < d.length) : ∃ y, d[j]? = some y :=
  ⟨d[j], List.getElem?_eq_getElem h⟩

theorem smoothingBlend_zero (skin : Nat → Nat → Nat → Bool) (oD bD : Buffer)
    (ho : IsPixelBuffer oD) (hlen : bD.length = oD.length) :
    smoothingBlend skin oD bD 0 = oD := by
  unfold smoothingBlend
  refine forStep4_induct (fun acc => acc = oD) _ _ oD rfl ?_
  intro k acc hacc
  subst hacc
  simp only
  split
  · next r g b e0 e1 e2 =>
    split
    · have l0 : 4 * k < bD.length := by
        rw [hlen]; exact (List.getElem?_eq_some.mp e0).1
      have l1 : 4 * k + 1 < bD.length := by
        rw [hlen]; exact (List.getElem?_eq_some.mp e1).1
      have l2 : 4 * k + 2 < bD.length := by
        rw [hlen]; exact (List.getElem?_eq_some.mp e2).1
      obtain ⟨y0, hy0⟩ := getElem?_of_lt bD _ l0
      obtain ⟨y1, hy1⟩ := getElem?_of_lt bD _ l1
      obtain ⟨y2, hy2⟩ := getElem?_of_lt bD _ l2
      rw [blendChannel_eq_self acc bD (4 * k) r y0 _ e0 hy0
        (getElem?_byte acc ho _ _ e0) (by simp)]
      rw [blendChannel_eq_self acc bD (4 * k + 1) g y1 _ e1 hy1
        (getElem?_byte acc ho _ _ e1) (by simp)]
      rw [blendChannel_eq_self acc bD (4 * k + 2) b y2 _ e2 hy2
        (getElem?_byte acc ho _ _ e2) (by simp)]
    · rfl
  · rfl

theorem smoothingBlend_hundred (skin : Nat → Nat → Nat → Bool) (oD bD : Buffer)
    (hb : IsPixelBuffer bD) (hlen : bD.length = oD.length) (k r g b : Nat)
    (hr : oD[4 * k]? = some r) (hg : oD[4 * k + 1]? = some g)
    (hbl : oD[4 * k + 2]? = some b) (hskin : skin r g b = true) :
    ∀ c, c < 3 → (smoothingBlend skin oD bD 100)[4 * k + c]? = bD[4 * k + c]? := by
  intro c hc
  have l0 : 4 * k < oD.length := (List.getElem?_eq_some.mp hr).1
  have l1 : 4 * k + 1 < oD.length := (List.getElem?_eq_some.mp hg).1
  have l2 : 4 * k + 2 < oD.length := (List.getElem?_eq_some.mp hbl).1
  obtain ⟨y0, hy0⟩ := getElem?_of_lt bD (4 * k) (by omega)
  obtain ⟨y1, hy1⟩ := getElem?_of_lt bD (4 * k + 1) (by omega)
  obtain ⟨y2, hy2⟩ := getElem?_of_lt bD (4 * k + 2) (by omega)
  unfold smoothingBlend
  simp only
  obtain ⟨-, hin⟩ := forStep4_pixel oD.length
    (fun i oD =>
      match oD[i]?, oD[i + 1]?, oD[i + 2]? with
      | some r, some g, some b =>
        if skin r g b then
          blendChannel
            (blendChannel
              (blendChannel oD bD i (fun y => r + (y - r) * (((100 : ℤ) : ℚ) / 100)))
              bD (i + 1) (fun y => g + (y - g) * (((100 : ℤ) : ℚ) / 100)))
            bD (i + 2) (fun y => b + (y - b) * (((100 : ℤ) : ℚ) / 100))
        else oD
      | _, _, _ => oD) oD
    (by
      intro k' acc j h0 h1 h2
      simp only
      split
      · split
        · rw [getElem?_blendChannel_ne _ _ _ (Ne.symm h2),
            getElem?_blendChannel_ne _ _ _ (Ne.symm h1),
            getElem?_blendChannel_ne _ _ _ (Ne.symm h0)]
        · rfl
      · rfl) k
  obtain ⟨X, hX, hres⟩ := hin l0
  rw [hres (4 * k + c) (by omega) (by omega)]
  have x0 : X[4 * k]? = some r := by rw [hX _ (by omega), hr]
  have x1 : X[4 * k + 1]? = some g := by rw [hX _ (by omega), hg]
  have x2 : X[4 * k + 2]? = some b := by rw [hX _ (by omega), hbl]
  have lx0 : 4 * k < X.length := (List.getElem?_eq_some.mp x0).1
  have lx1 : 4 * k + 1 < X.length := (List.getElem?_eq_some.mp x1).1
  have lx2 : 4 * k + 2 < X.length := (List.getElem?_eq_some.mp x2).1
  simp only [x0, x1, x2, hskin, if_true]
  have e100 : ∀ (x y : Nat), y < 256 →
      (clamp ((x : ℚ) + ((y : ℚ) - (x : ℚ)) * (((100 : ℤ) : ℚ) / 100))).toNat = y := by
    intro x y hy
    have : (x : ℚ) + ((y : ℚ) - (x : ℚ)) * (((100 : ℤ) : ℚ) / 100) = (y : ℚ) := by
      norm_num
    rw [this, clamp_natCast y hy, Int.toNat_ofNat]
  have hc3 : c = 0 ∨ c = 1 ∨ c = 2 := by omega
  rcases hc3 with rfl | rfl | rfl
  · rw [getElem?_blendChannel_ne _ _ _ (by omega), getElem?_blendChannel_ne _ _ _ (by omega),
      Nat.add_zero, getElem?_blendChannel_self _ _ _ y0 _ lx0 hy0, hy0,
      e100 r y0 (getElem?_byte bD hb _ _ hy0)]
  · rw [getElem?_blendChannel_ne _ _ _ (by omega),
      getElem?_blendChannel_self _ _ _ y1 _ (by rw [length_blendChannel]; exact lx1) hy1, hy1,
      e100 g y1 (getElem?_byte bD hb _ _ hy1)]
  · rw [getElem?_blendChannel_self _ _ _ y2 _
        (by rw [length_blendChannel, length_blendChannel]; exact lx2) hy2, hy2,
      e100 b y2 (getElem?_byte bD hb _ _ hy2)]

/-- C11: for every original buffer `oD` and blurred buffer `bD` of the same length
(both of byte samples, in whole pixels), and whatever function `skin` the call
`isSkinTone(r, g, b)` computes on the bytes of a pixel: the smoothing blend at
strength 0 returns `oD` unchanged, skin-classified pixels included; and at strength
100 the R, G, B samples of every pixel of `oD` classified as skin are, in the output,
the R, G, B samples of `bD` at that pixel. -/
theorem smoothingBlend_zero_hundred (skin : Nat → Nat → Nat → Bool) (oD bD : Buffer)
    (ho : IsPixelBuffer oD) (hb : IsPixelBuffer bD) (hlen : bD.length = oD.length) :
    smoothingBlend skin oD bD 0 = oD ∧
    ∀ k r g b : Nat, oD[4 * k]? = some r → oD[4 * k + 1]? = some g →
      oD[4 * k + 2]? = some b → skin r g b = true →
      ∀ c, c < 3 → (smoothingBlend skin oD bD 100)[4 * k + c]? = bD[4 * k + c]? :=
  ⟨smoothingBlend_zero skin oD bD ho hlen,
    fun k r g b hr hg hbl hskin =>
      smoothingBlend_hundred skin oD bD hb hlen k r g b hr hg hbl hskin⟩

/-- Witness of C11: one skin pixel (198, 141, 111, 255) blended with (1, 2, 3, 4),
with the classifier `isSkinTone`, which is true on (198, 141, 111). -/
theorem smoothingBlend_zero_hundred_witness :
    (IsPixelBuffer [198, 141, 111, 255] ∧ IsPixelBuffer [1, 2, 3, 4] ∧
      ([1, 2, 3, 4] : Buffer).length = ([198, 141, 111, 255] : Buffer).length ∧
      isSkinTone (198 : Nat) (141 : Nat) (111 : Nat) = true) ∧
    smoothingBlend (fun r g b => isSkinTone r g b) [198, 141, 111, 255] [1, 2, 3, 4] 0
      = [198, 141, 111, 255] ∧
    (smoothingBlend (fun r g b => isSkinTone r g b)
        [198, 141, 111, 255] [1, 2, 3, 4] 100)[4 * 0 + 0]?
      = ([1, 2, 3, 4] : Buffer)[4 * 0 + 0]? :=
  ⟨⟨by decide, by decide, rfl, by unfold isSkinTone; norm_num [max_def, min_def]⟩,
    (smoothingBlend_zero_hundred (fun r g b => isSkinTone r g b)
      [198, 141, 111, 255] [1, 2, 3, 4] (by decide) (by decide) rfl).1,
    (smoothingBlend_zero_hundred (fun r g b => isSkinTone r g b)
      [198, 141, 111, 255] [1, 2, 3, 4] (by decide) (by decide) rfl).2 0 198 141 111
      rfl rfl rfl (by unfold isSkinTone; norm_num [max_def, min_def]) 0 (by decide)⟩

end ImgTool
